import Mathlib

/-!
Verification of `llvm/Support/AlignOf.h` (swiftshader third_party llvm-subzero).

The header is pure compile-time metaprogramming: every template in it asks the
host toolchain for the size or alignment of a synthetic aggregate built from
the argument types.  We embed it shallowly: a C++ object type is represented by
the two numbers the toolchain attaches to it (its `sizeof` and its `alignof`)
together with whether it is an abstract class, and the toolchain object-layout
model the header relies on (the Itanium-style LP64 model the spec names as the
external collaborator) is made explicit:

* a member is placed at the current offset rounded up to the member alignment;
* a struct alignment is the maximum of its member alignments (at least 1);
* a struct size is the end offset rounded up to the struct alignment (at
  least 1, since no C++ object is empty);
* a union size is the maximum member size rounded up to the union alignment;
* an abstract (polymorphic) class carries a vtable pointer, 8 bytes large and
  8-byte aligned on the modelled LP64 toolchain.

Each template of the header is then a function over this representation,
translated clause by clause from the source.
-/

/-- A C++ object type as the host toolchain sees it: its `sizeof` in bytes,
its `alignof` in bytes, and whether it is an abstract class. -/
structure CType where
  size : Nat
  align : Nat
  isAbstract : Bool
deriving DecidableEq

/-- The type `char`: one byte, alignment one. It is the default argument of
the trailing nine template parameters of `AlignerImpl`, `SizerImpl` and
`AlignedCharArrayUnion`. -/
def charTy : CType := ⟨1, 1, false⟩

/-- The toolchain padding rule: round offset `n` up to the next multiple of
the alignment `a`. -/
def alignTo (n a : Nat) : Nat := n + (a - n % a) % a

/-- Offset reached after laying out the members `ms` in order, each placed at
the previous end offset rounded up to its own alignment. -/
def structMembersEnd (ms : List CType) : Nat :=
  ms.foldl (fun off t => alignTo off t.align + t.size) 0

/-- Alignment of a struct or union with members `ms`: the maximum of the
member alignments, and at least 1. -/
def structAlign (ms : List CType) : Nat :=
  ms.foldl (fun acc t => max acc t.align) 1

/-- Size of a struct with members `ms`: the end offset rounded up to the
struct alignment, and at least 1 (an empty C++ class still has size 1). -/
def structSize (ms : List CType) : Nat :=
  max 1 (alignTo (structMembersEnd ms) (structAlign ms))

/-- The concrete class the toolchain builds from the member list `ms`. -/
def mkStruct (ms : List CType) : CType :=
  ⟨structSize ms, structAlign ms, false⟩

/-- Size of a union with members `ms`: the maximum member size rounded up to
the union alignment, and at least 1. -/
def unionSize (ms : List CType) : Nat :=
  max 1 (alignTo (ms.foldl (fun acc t => max acc t.size) 0) (structAlign ms))

/-- The union type the toolchain builds from the member list `ms`. -/
def mkUnion (ms : List CType) : CType :=
  ⟨unionSize ms, structAlign ms, false⟩

/-- Size in bytes of a data pointer and its alignment on the modelled LP64
toolchain; a polymorphic class starts with one such vtable pointer. -/
def ptrBytes : Nat := 8

namespace detail

/-- AlignmentCalcImplBase, the abstract helper base of the abstract-type
specialization: a class whose only content is the pure virtual destructor, so
its layout is exactly one vtable pointer. -/
def AlignmentCalcImplBase : CType := ⟨ptrBytes, ptrBytes, true⟩

/-- AlignmentCalcImpl of the source, with the dispatch on
`std.is_abstract` made explicit.  The primary template is a struct holding a
`char x` followed by a `T t`; the `true` specialization instead derives from
both `AlignmentCalcImplBase` and `T`, laid out base after base by the same
placement rule, and is itself abstract. -/
def AlignmentCalcImpl (T : CType) : CType :=
  if T.isAbstract then
    ⟨structSize [AlignmentCalcImplBase, T], structAlign [AlignmentCalcImplBase, T], true⟩
  else
    mkStruct [charTy, T]

end detail

/-- Alignment of `AlignOf` in the source:
`sizeof(detail::AlignmentCalcImpl<T>) - sizeof(T)` (Nat subtraction, matching
the unsigned arithmetic of the enum/constexpr value). -/
def AlignOf.Alignment (T : CType) : Nat :=
  (detail.AlignmentCalcImpl T).size - T.size

/-- The function `alignOf` of the source: it just returns
`AlignOf.Alignment`. -/
def alignOf (T : CType) : Nat := AlignOf.Alignment T

/-- Threshold enum of `AlignOf`: 1 when the alignment is at least 2. -/
def AlignOf.Alignment_GreaterEqual_2Bytes (T : CType) : Nat :=
  if 2 ≤ AlignOf.Alignment T then 1 else 0

/-- Threshold enum of `AlignOf`: 1 when the alignment is at least 4. -/
def AlignOf.Alignment_GreaterEqual_4Bytes (T : CType) : Nat :=
  if 4 ≤ AlignOf.Alignment T then 1 else 0

/-- Threshold enum of `AlignOf`: 1 when the alignment is at least 8. -/
def AlignOf.Alignment_GreaterEqual_8Bytes (T : CType) : Nat :=
  if 8 ≤ AlignOf.Alignment T then 1 else 0

/-- Threshold enum of `AlignOf`: 1 when the alignment is at least 16. -/
def AlignOf.Alignment_GreaterEqual_16Bytes (T : CType) : Nat :=
  if 16 ≤ AlignOf.Alignment T then 1 else 0

/-- Threshold enum of `AlignOf`: 1 when the alignment is at most 2. -/
def AlignOf.Alignment_LessEqual_2Bytes (T : CType) : Nat :=
  if AlignOf.Alignment T ≤ 2 then 1 else 0

/-- Threshold enum of `AlignOf`: 1 when the alignment is at most 4. -/
def AlignOf.Alignment_LessEqual_4Bytes (T : CType) : Nat :=
  if AlignOf.Alignment T ≤ 4 then 1 else 0

/-- Threshold enum of `AlignOf`: 1 when the alignment is at most 8. -/
def AlignOf.Alignment_LessEqual_8Bytes (T : CType) : Nat :=
  if AlignOf.Alignment T ≤ 8 then 1 else 0

/-- Threshold enum of `AlignOf`: 1 when the alignment is at most 16. -/
def AlignOf.Alignment_LessEqual_16Bytes (T : CType) : Nat :=
  if AlignOf.Alignment T ≤ 16 then 1 else 0

/-- The alignment values for which the source pre-declares an
`AlignedCharArray` specialization (the `LLVM_ALIGNEDCHARARRAY_TEMPLATE_ALIGNMENT`
invocations for 1, 2, 4, 8, 16, 32, 64, 128). -/
def supportedAlignments : List Nat := [1, 2, 4, 8, 16, 32, 64, 128]

/-- AlignedCharArray of the source: for a pre-declared alignment `A` it is the
struct holding the single member `aligned(A) char buffer[S]` (a member of size
`S` placed with alignment `A`); for any other `A` the primary template is
declared but never defined, so the instantiation does not exist — modelled as
`none`. -/
def AlignedCharArray (A S : Nat) : Option CType :=
  if A ∈ supportedAlignments then some (mkStruct [⟨S, A, false⟩]) else none

namespace detail

/-- AlignerImpl of the source: a class holding one member of each of the ten
candidate types, in order. -/
def AlignerImpl (ts : List CType) : CType := mkStruct ts

/-- SizerImpl of the source: a union of the char arrays
`arr1[sizeof(T1)] .. arr10[sizeof(T10)]`; each member is a char array of the
candidate size with alignment 1. -/
def SizerImpl (ts : List CType) : CType :=
  mkUnion (ts.map fun t => ⟨t.size, 1, false⟩)

end detail

/-- AlignedCharArrayUnion of the source: it derives from
`AlignedCharArray<AlignOf<AlignerImpl<T1..T10>>::Alignment, sizeof(SizerImpl<T1..T10>)>`.
The list argument carries the ten candidate types (trailing defaults being
`charTy`). -/
def AlignedCharArrayUnion (ts : List CType) : Option CType :=
  AlignedCharArray (AlignOf.Alignment (detail.AlignerImpl ts))
    (detail.SizerImpl ts).size

/-- Maximum of the candidate alignments, the quantity the spec calls
MaxAlignment. -/
def listMaxAlign (ts : List CType) : Nat :=
  ts.foldl (fun acc t => max acc t.align) 0

/-- Maximum of the candidate sizes, the quantity the spec calls MaxSize. -/
def listMaxSize (ts : List CType) : Nat :=
  ts.foldl (fun acc t => max acc t.size) 0

/-- A C++ type the toolchain can realize: positive size, positive alignment,
and size a multiple of alignment (so arrays of it pack correctly). -/
def WellFormed (T : CType) : Prop :=
  1 ≤ T.size ∧ 1 ≤ T.align ∧ T.align ∣ T.size

instance (T : CType) : Decidable (WellFormed T) := by
  unfold WellFormed; infer_instance

/-- A power of two, the shape every alignment value has in the modelled
object model. -/
def IsPow2 (n : Nat) : Prop := ∃ k, n = 2 ^ k

/-- The trivial concrete subtype of an abstract class `T`: it overrides the
pure virtual members and adds no state, so the toolchain gives it the same
size and alignment as the base, and it is no longer abstract. -/
def trivialConcreteSubtype (T : CType) : CType := ⟨T.size, T.align, false⟩

/-! ## Basic facts about the layout arithmetic -/

theorem alignTo_of_dvd {n a : Nat} (h : a ∣ n) : alignTo n a = n := by
  have hm : n % a = 0 := Nat.dvd_iff_mod_eq_zero.mp h
  unfold alignTo
  simp [hm, Nat.sub_zero, Nat.mod_self]

theorem alignTo_of_le {n a : Nat} (h1 : 1 ≤ n) (h2 : n ≤ a) : alignTo n a = a := by
  unfold alignTo
  rcases Nat.lt_or_ge n a with hlt | hge
  · have hm : n % a = n := Nat.mod_eq_of_lt hlt
    have hsub : (a - n) % a = a - n := Nat.mod_eq_of_lt (by omega)
    rw [hm, hsub]
    omega
  · have hna : n = a := le_antisymm h2 hge
    subst hna
    simp [Nat.mod_self]

theorem le_alignTo (n a : Nat) : n ≤ alignTo n a := by
  unfold alignTo; omega

theorem dvd_alignTo {a : Nat} (ha : 1 ≤ a) (n : Nat) : a ∣ alignTo n a := by
  unfold alignTo
  rcases Nat.eq_zero_or_pos (n % a) with hm | hm
  · have hd : a ∣ n := Nat.dvd_iff_mod_eq_zero.mpr hm
    simpa [hm, Nat.mod_self] using hd
  · have hlt : n % a < a := Nat.mod_lt n ha
    have hsub : (a - n % a) % a = a - n % a := Nat.mod_eq_of_lt (by omega)
    rw [hsub]
    refine ⟨n / a + 1, ?_⟩
    have := Nat.div_add_mod n a
    have : n + (a - n % a) = a * (n / a) + a := by omega
    rw [this]
    ring

theorem alignTo_one (n : Nat) : alignTo n 1 = n := by
  unfold alignTo; omega

/-! ## The AlignmentCalcImpl computation -/

theorem alignmentCalcImpl_concrete (T : CType) (hA : T.isAbstract = false)
    (h : WellFormed T) :
    detail.AlignmentCalcImpl T = ⟨T.align + T.size, T.align, false⟩ := by
  obtain ⟨hs, ha, hd⟩ := h
  have hAl : structAlign [charTy, T] = T.align := by
    simp only [structAlign, List.foldl, charTy]
    omega
  have hEnd : structMembersEnd [charTy, T] = T.align + T.size := by
    simp only [structMembersEnd, List.foldl, charTy, alignTo_one, Nat.zero_add]
    rw [alignTo_of_le le_rfl ha]
  have hSz : structSize [charTy, T] = T.align + T.size := by
    unfold structSize
    rw [hEnd, hAl, alignTo_of_dvd (Nat.dvd_add (Nat.dvd_refl T.align) hd)]
    omega
  simp [detail.AlignmentCalcImpl, hA, mkStruct, hSz, hAl]

theorem alignmentCalcImpl_abstract (T : CType) (hA : T.isAbstract = true)
    (h : WellFormed T) (hp : ptrBytes ≤ T.align) :
    (detail.AlignmentCalcImpl T).size = T.align + T.size := by
  obtain ⟨hs, ha, hd⟩ := h
  have hp8 : (8 : Nat) ≤ T.align := hp
  have hAl : structAlign [detail.AlignmentCalcImplBase, T] = T.align := by
    simp only [structAlign, List.foldl, detail.AlignmentCalcImplBase, ptrBytes]
    omega
  have hEnd : structMembersEnd [detail.AlignmentCalcImplBase, T]
      = T.align + T.size := by
    simp only [structMembersEnd, List.foldl, detail.AlignmentCalcImplBase, ptrBytes,
      alignTo_of_dvd (Nat.dvd_zero 8), Nat.zero_add]
    rw [alignTo_of_le (by omega) hp8]
  have hSz : structSize [detail.AlignmentCalcImplBase, T] = T.align + T.size := by
    unfold structSize
    rw [hEnd, hAl, alignTo_of_dvd (Nat.dvd_add (Nat.dvd_refl T.align) hd)]
    omega
  simp [detail.AlignmentCalcImpl, hA, hSz]

/-! ## Claim theorems: the alignment-deduction mechanism -/

/-- C1: for every concrete (non-abstract) well-formed type T, the constant
AlignOf.Alignment, computed as the size of the char-then-T helper aggregate
minus the size of T, equals the toolchain alignment of T. -/
theorem alignOf_concrete_eq_align (T : CType) (hA : T.isAbstract = false)
    (h : WellFormed T) : AlignOf.Alignment T = T.align := by
  unfold AlignOf.Alignment
  rw [alignmentCalcImpl_concrete T hA h]
  simp

theorem alignOf_concrete_eq_align_witness :
    (⟨4, 4, false⟩ : CType).isAbstract = false ∧ WellFormed ⟨4, 4, false⟩ ∧
      AlignOf.Alignment ⟨4, 4, false⟩ = 4 :=
  ⟨rfl, by decide, alignOf_concrete_eq_align ⟨4, 4, false⟩ rfl (by decide)⟩

/-- C2: for every abstract well-formed type T (whose alignment is at least the
vtable-pointer alignment, as every polymorphic class is), the helper that
derives from both AlignmentCalcImplBase and T yields an AlignOf.Alignment
equal to the alignment of a trivial concrete subtype of T, namely the
alignment of T itself. -/
theorem alignOf_abstract_eq_subtype (T : CType) (hA : T.isAbstract = true)
    (h : WellFormed T) (hp : ptrBytes ≤ T.align) :
    AlignOf.Alignment T = AlignOf.Alignment (trivialConcreteSubtype T) ∧
      AlignOf.Alignment T = T.align := by
  have habs : AlignOf.Alignment T = T.align := by
    unfold AlignOf.Alignment
    rw [alignmentCalcImpl_abstract T hA h hp]
    omega
  have hcon : AlignOf.Alignment (trivialConcreteSubtype T) = T.align := by
    unfold AlignOf.Alignment
    rw [alignmentCalcImpl_concrete (trivialConcreteSubtype T) rfl
      ⟨h.1, h.2.1, h.2.2⟩]
    simp [trivialConcreteSubtype]
  exact ⟨habs.trans hcon.symm, habs⟩

theorem alignOf_abstract_eq_subtype_witness :
    (⟨16, 8, true⟩ : CType).isAbstract = true ∧ WellFormed ⟨16, 8, true⟩ ∧
      ptrBytes ≤ (⟨16, 8, true⟩ : CType).align ∧
      (AlignOf.Alignment ⟨16, 8, true⟩
          = AlignOf.Alignment (trivialConcreteSubtype ⟨16, 8, true⟩) ∧
        AlignOf.Alignment ⟨16, 8, true⟩ = 8) :=
  ⟨rfl, by decide, by decide,
    alignOf_abstract_eq_subtype ⟨16, 8, true⟩ rfl (by decide) (by decide)⟩

/-- C8: for every well-formed type T, abstract or not (abstract ones having at
least vtable-pointer alignment), the helper aggregate is strictly larger than
T, so the unsigned subtraction defining AlignOf.Alignment never underflows,
the value is at least 1, and it is a power of two whenever the alignment of T
is one. -/
theorem alignOf_pow2_no_underflow (T : CType) (h : WellFormed T)
    (hp : T.isAbstract = true → ptrBytes ≤ T.align) (h2 : IsPow2 T.align) :
    T.size < (detail.AlignmentCalcImpl T).size ∧ 1 ≤ AlignOf.Alignment T ∧
      IsPow2 (AlignOf.Alignment T) := by
  have hsz : (detail.AlignmentCalcImpl T).size = T.align + T.size := by
    cases hab : T.isAbstract
    · rw [alignmentCalcImpl_concrete T hab h]
    · exact alignmentCalcImpl_abstract T hab h (hp hab)
  have hAlg : AlignOf.Alignment T = T.align := by
    unfold AlignOf.Alignment
    rw [hsz]
    omega
  refine ⟨?_, ?_, ?_⟩
  · rw [hsz]; have := h.2.1; omega
  · rw [hAlg]; exact h.2.1
  · rw [hAlg]; exact h2

theorem alignOf_pow2_no_underflow_witness :
    WellFormed ⟨8, 8, true⟩ ∧ IsPow2 (CType.align ⟨8, 8, true⟩) ∧
      ((⟨8, 8, true⟩ : CType).size < (detail.AlignmentCalcImpl ⟨8, 8, true⟩).size ∧
        1 ≤ AlignOf.Alignment ⟨8, 8, true⟩ ∧
        IsPow2 (AlignOf.Alignment ⟨8, 8, true⟩)) :=
  ⟨by decide, ⟨3, rfl⟩,
    alignOf_pow2_no_underflow ⟨8, 8, true⟩ (by decide) (fun _ => by decide)
      ⟨3, rfl⟩⟩

/-! ## Claim theorems: the threshold constants -/

/-- C9: each of the eight boolean constants of AlignOf is exactly the
corresponding comparison of the Alignment value against 2, 4, 8 and 16: the
GreaterEqual flag is 1 iff the alignment is at least the threshold and the
LessEqual flag is 1 iff it is at most the threshold. -/
theorem alignOf_threshold_flags (T : CType) :
    (AlignOf.Alignment_GreaterEqual_2Bytes T = 1 ↔ 2 ≤ AlignOf.Alignment T) ∧
    (AlignOf.Alignment_GreaterEqual_4Bytes T = 1 ↔ 4 ≤ AlignOf.Alignment T) ∧
    (AlignOf.Alignment_GreaterEqual_8Bytes T = 1 ↔ 8 ≤ AlignOf.Alignment T) ∧
    (AlignOf.Alignment_GreaterEqual_16Bytes T = 1 ↔ 16 ≤ AlignOf.Alignment T) ∧
    (AlignOf.Alignment_LessEqual_2Bytes T = 1 ↔ AlignOf.Alignment T ≤ 2) ∧
    (AlignOf.Alignment_LessEqual_4Bytes T = 1 ↔ AlignOf.Alignment T ≤ 4) ∧
    (AlignOf.Alignment_LessEqual_8Bytes T = 1 ↔ AlignOf.Alignment T ≤ 8) ∧
    (AlignOf.Alignment_LessEqual_16Bytes T = 1 ↔ AlignOf.Alignment T ≤ 16) := by
  unfold AlignOf.Alignment_GreaterEqual_2Bytes AlignOf.Alignment_GreaterEqual_4Bytes
    AlignOf.Alignment_GreaterEqual_8Bytes AlignOf.Alignment_GreaterEqual_16Bytes
    AlignOf.Alignment_LessEqual_2Bytes AlignOf.Alignment_LessEqual_4Bytes
    AlignOf.Alignment_LessEqual_8Bytes AlignOf.Alignment_LessEqual_16Bytes
  refine ⟨?_, ?_, ?_, ?_, ?_, ?_, ?_, ?_⟩ <;> (split <;> simp_all)

/-- C10: the threshold constants are mutually consistent: the GreaterEqual
flags are downward monotone, the LessEqual flags are upward monotone, for
every threshold at least one of the two flags is 1, and both are 1 exactly
when the alignment equals the threshold. -/
theorem alignOf_threshold_flags_consistent (T : CType) :
    ((AlignOf.Alignment_GreaterEqual_16Bytes T = 1 →
        AlignOf.Alignment_GreaterEqual_8Bytes T = 1) ∧
      (AlignOf.Alignment_GreaterEqual_8Bytes T = 1 →
        AlignOf.Alignment_GreaterEqual_4Bytes T = 1) ∧
      (AlignOf.Alignment_GreaterEqual_4Bytes T = 1 →
        AlignOf.Alignment_GreaterEqual_2Bytes T = 1)) ∧
    ((AlignOf.Alignment_LessEqual_2Bytes T = 1 →
        AlignOf.Alignment_LessEqual_4Bytes T = 1) ∧
      (AlignOf.Alignment_LessEqual_4Bytes T = 1 →
        AlignOf.Alignment_LessEqual_8Bytes T = 1) ∧
      (AlignOf.Alignment_LessEqual_8Bytes T = 1 →
        AlignOf.Alignment_LessEqual_16Bytes T = 1)) ∧
    ((AlignOf.Alignment_GreaterEqual_2Bytes T = 1 ∨
        AlignOf.Alignment_LessEqual_2Bytes T = 1) ∧
      (AlignOf.Alignment_GreaterEqual_4Bytes T = 1 ∨
        AlignOf.Alignment_LessEqual_4Bytes T = 1) ∧
      (AlignOf.Alignment_GreaterEqual_8Bytes T = 1 ∨
        AlignOf.Alignment_LessEqual_8Bytes T = 1) ∧
      (AlignOf.Alignment_GreaterEqual_16Bytes T = 1 ∨
        AlignOf.Alignment_LessEqual_16Bytes T = 1)) ∧
    ((AlignOf.Alignment_GreaterEqual_2Bytes T = 1 ∧
        AlignOf.Alignment_LessEqual_2Bytes T = 1 ↔ AlignOf.Alignment T = 2) ∧
      (AlignOf.Alignment_GreaterEqual_4Bytes T = 1 ∧
        AlignOf.Alignment_LessEqual_4Bytes T = 1 ↔ AlignOf.Alignment T = 4) ∧
      (AlignOf.Alignment_GreaterEqual_8Bytes T = 1 ∧
        AlignOf.Alignment_LessEqual_8Bytes T = 1 ↔ AlignOf.Alignment T = 8) ∧
      (AlignOf.Alignment_GreaterEqual_16Bytes T = 1 ∧
        AlignOf.Alignment_LessEqual_16Bytes T = 1 ↔ AlignOf.Alignment T = 16)) := by
  unfold AlignOf.Alignment_GreaterEqual_2Bytes AlignOf.Alignment_GreaterEqual_4Bytes
    AlignOf.Alignment_GreaterEqual_8Bytes AlignOf.Alignment_GreaterEqual_16Bytes
    AlignOf.Alignment_LessEqual_2Bytes AlignOf.Alignment_LessEqual_4Bytes
    AlignOf.Alignment_LessEqual_8Bytes AlignOf.Alignment_LessEqual_16Bytes
  refine ⟨⟨?_, ?_, ?_⟩, ⟨?_, ?_, ?_⟩, ⟨?_, ?_, ?_, ?_⟩, ⟨?_, ?_, ?_, ?_⟩⟩ <;>
    (split_ifs <;> simp_all <;> omega)

/-! ## Facts about the fold-based layout of member lists -/

theorem alignment_of_concrete (T : CType) (hA : T.isAbstract = false)
    (h : WellFormed T) : AlignOf.Alignment T = T.align := by
  unfold AlignOf.Alignment
  rw [alignmentCalcImpl_concrete T hA h]
  simp

theorem le_foldl_maxAlign (ts : List CType) (b : Nat) :
    b ≤ ts.foldl (fun acc t => max acc t.align) b := by
  induction ts generalizing b with
  | nil => exact le_rfl
  | cons t ts ih =>
    simp only [List.foldl]
    exact le_trans (Nat.le_max_left _ _) (ih _)

theorem le_foldl_maxSize (ts : List CType) (b : Nat) :
    b ≤ ts.foldl (fun acc t => max acc t.size) b := by
  induction ts generalizing b with
  | nil => exact le_rfl
  | cons t ts ih =>
    simp only [List.foldl]
    exact le_trans (Nat.le_max_left _ _) (ih _)

theorem le_foldl_end (ts : List CType) (b : Nat) :
    b ≤ ts.foldl (fun off t => alignTo off t.align + t.size) b := by
  induction ts generalizing b with
  | nil => exact le_rfl
  | cons t ts ih =>
    simp only [List.foldl]
    refine le_trans ?_ (ih _)
    have := le_alignTo b t.align
    omega

theorem structMembersEnd_pos (t : CType) (ts : List CType) (ht : 1 ≤ t.size) :
    1 ≤ structMembersEnd (t :: ts) := by
  unfold structMembersEnd
  simp only [List.foldl]
  refine le_trans ?_ (le_foldl_end ts _)
  have := le_alignTo 0 t.align
  omega

theorem structAlign_pos (ts : List CType) : 1 ≤ structAlign ts :=
  le_foldl_maxAlign ts 1

theorem mkStruct_wf (t : CType) (ts : List CType)
    (h : ∀ u ∈ t :: ts, WellFormed u) : WellFormed (mkStruct (t :: ts)) := by
  have hend : 1 ≤ structMembersEnd (t :: ts) :=
    structMembersEnd_pos t ts (h t (by simp)).1
  have halign : 1 ≤ structAlign (t :: ts) := structAlign_pos _
  have hsz : structSize (t :: ts)
      = alignTo (structMembersEnd (t :: ts)) (structAlign (t :: ts)) := by
    unfold structSize
    have := le_alignTo (structMembersEnd (t :: ts)) (structAlign (t :: ts))
    omega
  refine ⟨?_, halign, ?_⟩
  · show 1 ≤ structSize (t :: ts)
    unfold structSize
    omega
  · show structAlign (t :: ts) ∣ structSize (t :: ts)
    rw [hsz]
    exact dvd_alignTo halign _

theorem alignerImpl_alignment (t : CType) (ts : List CType)
    (h : ∀ u ∈ t :: ts, WellFormed u) :
    AlignOf.Alignment (detail.AlignerImpl (t :: ts)) = structAlign (t :: ts) :=
  alignment_of_concrete _ rfl (mkStruct_wf t ts h)

theorem foldl_maxAlign_init (ts : List CType) (a b : Nat) :
    ts.foldl (fun acc t => max acc t.align) (max a b)
      = max a (ts.foldl (fun acc t => max acc t.align) b) := by
  induction ts generalizing b with
  | nil => rfl
  | cons t ts ih =>
    simp only [List.foldl]
    rw [max_assoc, ih]

theorem foldl_maxSize_init (ts : List CType) (a b : Nat) :
    ts.foldl (fun acc t => max acc t.size) (max a b)
      = max a (ts.foldl (fun acc t => max acc t.size) b) := by
  induction ts generalizing b with
  | nil => rfl
  | cons t ts ih =>
    simp only [List.foldl]
    rw [max_assoc, ih]

theorem structAlign_eq_max_one (ts : List CType) :
    structAlign ts = max 1 (listMaxAlign ts) := by
  unfold structAlign listMaxAlign
  have h : (1 : Nat) = max 1 0 := rfl
  rw [h, foldl_maxAlign_init]
  omega

theorem listMaxAlign_pos (t : CType) (ts : List CType) (ht : 1 ≤ t.align) :
    1 ≤ listMaxAlign (t :: ts) := by
  unfold listMaxAlign
  simp only [List.foldl]
  refine le_trans ?_ (le_foldl_maxAlign ts _)
  omega

theorem listMaxSize_pos (t : CType) (ts : List CType) (ht : 1 ≤ t.size) :
    1 ≤ listMaxSize (t :: ts) := by
  unfold listMaxSize
  simp only [List.foldl]
  refine le_trans ?_ (le_foldl_maxSize ts _)
  omega

theorem structAlign_eq_listMaxAlign (t : CType) (ts : List CType)
    (ht : 1 ≤ t.align) : structAlign (t :: ts) = listMaxAlign (t :: ts) := by
  rw [structAlign_eq_max_one]
  have := listMaxAlign_pos t ts ht
  omega

theorem structAlign_charArrays (ts : List CType) :
    structAlign (ts.map fun t => (⟨t.size, 1, false⟩ : CType)) = 1 := by
  unfold structAlign
  induction ts with
  | nil => rfl
  | cons t ts ih => simpa using ih

theorem sizerImpl_align_one (ts : List CType) : (detail.SizerImpl ts).align = 1 := by
  unfold detail.SizerImpl mkUnion
  exact structAlign_charArrays ts

theorem foldl_maxSize_map (ts : List CType) (b : Nat) :
    (ts.map fun t => (⟨t.size, 1, false⟩ : CType)).foldl
        (fun acc t => max acc t.size) b
      = ts.foldl (fun acc t => max acc t.size) b := by
  induction ts generalizing b with
  | nil => rfl
  | cons t ts ih =>
    simp only [List.map, List.foldl]
    exact ih _

theorem sizerImpl_size (t : CType) (ts : List CType)
    (h : ∀ u ∈ t :: ts, WellFormed u) :
    (detail.SizerImpl (t :: ts)).size = listMaxSize (t :: ts) := by
  have hpos : 1 ≤ listMaxSize (t :: ts) := listMaxSize_pos t ts (h t (by simp)).1
  show unionSize _ = _
  unfold unionSize
  rw [structAlign_charArrays, alignTo_one, foldl_maxSize_map]
  have : (t :: ts).foldl (fun acc u => max acc u.size) 0 = listMaxSize (t :: ts) := rfl
  rw [this]
  omega

/-! ## Facts about the supported alignment set and AlignedCharArray -/

theorem one_le_supported {a : Nat} (ha : a ∈ supportedAlignments) : 1 ≤ a := by
  have h : ∀ x ∈ supportedAlignments, 1 ≤ x := by decide
  exact h a ha

theorem max_mem_supported {a b : Nat} (ha : a ∈ supportedAlignments)
    (hb : b ∈ supportedAlignments) : max a b ∈ supportedAlignments := by
  have h : ∀ x ∈ supportedAlignments, ∀ y ∈ supportedAlignments,
      max x y ∈ supportedAlignments := by decide
  exact h a ha b hb

theorem foldl_maxAlign_mem (ts : List CType) (b : Nat)
    (hb : b ∈ supportedAlignments)
    (h : ∀ t ∈ ts, t.align ∈ supportedAlignments) :
    ts.foldl (fun acc t => max acc t.align) b ∈ supportedAlignments := by
  induction ts generalizing b with
  | nil => exact hb
  | cons t ts ih =>
    simp only [List.foldl]
    exact ih _ (max_mem_supported hb (h t (by simp)))
      (fun u hu => h u (by simp [hu]))

theorem listMaxAlign_mem (t : CType) (ts : List CType)
    (h : ∀ u ∈ t :: ts, u.align ∈ supportedAlignments) :
    listMaxAlign (t :: ts) ∈ supportedAlignments := by
  unfold listMaxAlign
  simp only [List.foldl, Nat.zero_max]
  exact foldl_maxAlign_mem ts t.align (h t (by simp)) (fun u hu => h u (by simp [hu]))

theorem alignedCharArray_eq (A S : Nat) (hA : A ∈ supportedAlignments)
    (hS : 1 ≤ S) : AlignedCharArray A S = some ⟨alignTo S A, A, false⟩ := by
  have h1 : 1 ≤ A := one_le_supported hA
  unfold AlignedCharArray
  rw [if_pos hA]
  unfold mkStruct structSize structAlign structMembersEnd
  simp only [List.foldl]
  rw [alignTo_of_dvd (Nat.dvd_zero A), Nat.zero_add]
  have hmax : max 1 A = A := by omega
  rw [hmax]
  have h2 : 1 ≤ alignTo S A := le_trans hS (le_alignTo S A)
  have hmax2 : max 1 (alignTo S A) = alignTo S A := by omega
  rw [hmax2]

/-! ## Claim theorems: aligned storage and the ten-candidate union -/

/-- C4: the MaxAlignment fed into the storage construction, namely
AlignOf.Alignment of the AlignerImpl aggregate holding one member of each
candidate, equals the maximum of the candidates individual alignments; the
MaxSize, namely the size of the SizerImpl union of char arrays, equals the
maximum of the candidates individual sizes rounded up to the union alignment,
which is 1, so it is exactly that maximum. -/
theorem alignerImpl_sizerImpl_maxima (ts : List CType) (hne : ts ≠ [])
    (h : ∀ t ∈ ts, WellFormed t) :
    AlignOf.Alignment (detail.AlignerImpl ts) = listMaxAlign ts ∧
      (detail.SizerImpl ts).size = listMaxSize ts ∧
      (detail.SizerImpl ts).align = 1 := by
  cases ts with
  | nil => cases hne rfl
  | cons t ts =>
    refine ⟨?_, sizerImpl_size t ts h, sizerImpl_align_one _⟩
    rw [alignerImpl_alignment t ts h]
    exact structAlign_eq_listMaxAlign t ts (h t (by simp)).2.1

theorem alignerImpl_sizerImpl_maxima_witness :
    ([⟨4, 4, false⟩, ⟨8, 8, false⟩, charTy, charTy, charTy, charTy, charTy,
        charTy, charTy, charTy] : List CType) ≠ [] ∧
      (∀ t ∈ ([⟨4, 4, false⟩, ⟨8, 8, false⟩, charTy, charTy, charTy, charTy,
        charTy, charTy, charTy, charTy] : List CType), WellFormed t) ∧
      (AlignOf.Alignment (detail.AlignerImpl [⟨4, 4, false⟩, ⟨8, 8, false⟩,
          charTy, charTy, charTy, charTy, charTy, charTy, charTy, charTy])
          = listMaxAlign [⟨4, 4, false⟩, ⟨8, 8, false⟩, charTy, charTy, charTy,
            charTy, charTy, charTy, charTy, charTy] ∧
        (detail.SizerImpl [⟨4, 4, false⟩, ⟨8, 8, false⟩, charTy, charTy, charTy,
            charTy, charTy, charTy, charTy, charTy]).size
          = listMaxSize [⟨4, 4, false⟩, ⟨8, 8, false⟩, charTy, charTy, charTy,
            charTy, charTy, charTy, charTy, charTy] ∧
        (detail.SizerImpl [⟨4, 4, false⟩, ⟨8, 8, false⟩, charTy, charTy, charTy,
            charTy, charTy, charTy, charTy, charTy]).align = 1) :=
  ⟨by decide, by decide, alignerImpl_sizerImpl_maxima _ (by decide) (by decide)⟩

/-- C3: for candidates that the toolchain can realize and whose alignments lie
in the pre-declared set, AlignedCharArrayUnion produces a storage type whose
alignment is at least every candidate alignment and whose size is at least
every candidate size, so any one candidate can be placement-constructed into
its buffer. -/
theorem alignedCharArrayUnion_hosts_each (ts : List CType) (hne : ts ≠ [])
    (h : ∀ t ∈ ts, WellFormed t)
    (hsup : ∀ t ∈ ts, t.align ∈ supportedAlignments) :
    ∃ U, AlignedCharArrayUnion ts = some U ∧
      listMaxAlign ts ≤ U.align ∧ listMaxSize ts ≤ U.size := by
  cases ts with
  | nil => cases hne rfl
  | cons t ts =>
    have hA : AlignOf.Alignment (detail.AlignerImpl (t :: ts))
        = listMaxAlign (t :: ts) := by
      rw [alignerImpl_alignment t ts h]
      exact structAlign_eq_listMaxAlign t ts (h t (by simp)).2.1
    have hS : (detail.SizerImpl (t :: ts)).size = listMaxSize (t :: ts) :=
      sizerImpl_size t ts h
    have hmem : listMaxAlign (t :: ts) ∈ supportedAlignments :=
      listMaxAlign_mem t ts hsup
    have hS1 : 1 ≤ listMaxSize (t :: ts) := listMaxSize_pos t ts (h t (by simp)).1
    unfold AlignedCharArrayUnion
    rw [hA, hS, alignedCharArray_eq _ _ hmem hS1]
    exact ⟨_, rfl, le_rfl, le_alignTo _ _⟩

theorem alignedCharArrayUnion_hosts_each_witness :
    ([⟨4, 4, false⟩, ⟨8, 8, false⟩] : List CType) ≠ [] ∧
      (∀ t ∈ ([⟨4, 4, false⟩, ⟨8, 8, false⟩] : List CType), WellFormed t) ∧
      (∀ t ∈ ([⟨4, 4, false⟩, ⟨8, 8, false⟩] : List CType),
        t.align ∈ supportedAlignments) ∧
      (∃ U, AlignedCharArrayUnion [⟨4, 4, false⟩, ⟨8, 8, false⟩] = some U ∧
        listMaxAlign [⟨4, 4, false⟩, ⟨8, 8, false⟩] ≤ U.align ∧
        listMaxSize [⟨4, 4, false⟩, ⟨8, 8, false⟩] ≤ U.size) :=
  ⟨by decide, by decide, by decide,
    alignedCharArrayUnion_hosts_each _ (by decide) (by decide) (by decide)⟩

/-- C5 counterexample: AlignedCharArray with alignment 16 and requested size 5
does not have size exactly 5; the toolchain pads the struct to a multiple of
its alignment, so its size is 16. -/
theorem alignedCharArray_size_not_requested :
    ¬ Option.map CType.size (AlignedCharArray 16 5) = some 5 := by decide

/-- C5 amended: for every supported alignment A and size S at least 1, the
type AlignedCharArray A S exists, has alignment exactly A (so every instance
starts at an address that is a multiple of A), and has size alignTo S A, the
requested size rounded up to a multiple of A; the size is exactly S whenever
A divides S, but not in general. -/
theorem alignedCharArray_size_align (A S : Nat) (hA : A ∈ supportedAlignments)
    (hS : 1 ≤ S) :
    ∃ U, AlignedCharArray A S = some U ∧ U.align = A ∧ U.size = alignTo S A ∧
      S ≤ U.size ∧ (A ∣ S → U.size = S) :=
  ⟨_, alignedCharArray_eq A S hA hS, rfl, rfl, le_alignTo S A,
    fun hd => alignTo_of_dvd hd⟩

theorem alignedCharArray_size_align_witness :
    (16 : Nat) ∈ supportedAlignments ∧ (1 : Nat) ≤ 5 ∧
      (∃ U, AlignedCharArray 16 5 = some U ∧ U.align = 16 ∧
        U.size = alignTo 5 16 ∧ 5 ≤ U.size ∧ ((16 : Nat) ∣ 5 → U.size = 5)) :=
  ⟨by decide, by decide, alignedCharArray_size_align 16 5 (by decide) (by decide)⟩

/-- C6: AlignedCharArray A S is defined exactly when A is one of the
pre-declared alignment values 1, 2, 4, 8, 16, 32, 64, 128; for any other A the
primary template is declared but never defined, so the instantiation is
rejected during compilation, modelled here by the construction returning
none. -/
theorem alignedCharArray_defined_iff (A S : Nat) :
    (AlignedCharArray A S).isSome = true
      ↔ A ∈ ([1, 2, 4, 8, 16, 32, 64, 128] : List Nat) := by
  unfold AlignedCharArray supportedAlignments
  split_ifs with h
  · simp [h]
  · simp [h]

/-- C7: filling the trailing eight candidate slots with the default char type
is a no-op: the ten-candidate union built from T1, T2 and eight chars is the
very same storage type as the one built from T1 and T2 alone, and the maxima
that feed it are the direct two-type maxima, because each char slot
contributes alignment 1 and size 1. -/
theorem alignedCharArrayUnion_defaults_noop (T1 T2 : CType)
    (h1 : WellFormed T1) (h2 : WellFormed T2) :
    AlignedCharArrayUnion [T1, T2, charTy, charTy, charTy, charTy, charTy,
        charTy, charTy, charTy] = AlignedCharArrayUnion [T1, T2] ∧
      listMaxAlign [T1, T2, charTy, charTy, charTy, charTy, charTy, charTy,
        charTy, charTy] = max T1.align T2.align ∧
      listMaxSize [T1, T2, charTy, charTy, charTy, charTy, charTy, charTy,
        charTy, charTy] = max T1.size T2.size := by
  have hall10 : ∀ t ∈ ([T1, T2, charTy, charTy, charTy, charTy, charTy, charTy,
      charTy, charTy] : List CType), WellFormed t := by
    intro t ht
    fin_cases ht
    · exact h1
    · exact h2
    all_goals decide
  have hall2 : ∀ t ∈ ([T1, T2] : List CType), WellFormed t := by
    intro t ht
    fin_cases ht
    · exact h1
    · exact h2
  have hA10 : AlignOf.Alignment (detail.AlignerImpl [T1, T2, charTy, charTy,
      charTy, charTy, charTy, charTy, charTy, charTy])
      = listMaxAlign [T1, T2, charTy, charTy, charTy, charTy, charTy, charTy,
        charTy, charTy] := by
    rw [alignerImpl_alignment _ _ hall10]
    exact structAlign_eq_listMaxAlign _ _ h1.2.1
  have hA2 : AlignOf.Alignment (detail.AlignerImpl [T1, T2])
      = listMaxAlign [T1, T2] := by
    rw [alignerImpl_alignment _ _ hall2]
    exact structAlign_eq_listMaxAlign _ _ h1.2.1
  have hS10 : (detail.SizerImpl [T1, T2, charTy, charTy, charTy, charTy,
      charTy, charTy, charTy, charTy]).size
      = listMaxSize [T1, T2, charTy, charTy, charTy, charTy, charTy, charTy,
        charTy, charTy] := sizerImpl_size _ _ hall10
  have hS2 : (detail.SizerImpl [T1, T2]).size = listMaxSize [T1, T2] :=
    sizerImpl_size _ _ hall2
  have heqA : listMaxAlign [T1, T2, charTy, charTy, charTy, charTy, charTy,
      charTy, charTy, charTy] = max T1.align T2.align := by
    have hc : charTy.align = 1 := rfl
    have ha : 1 ≤ T1.align := h1.2.1
    simp only [listMaxAlign, List.foldl, hc]
    omega
  have heqS : listMaxSize [T1, T2, charTy, charTy, charTy, charTy, charTy,
      charTy, charTy, charTy] = max T1.size T2.size := by
    have hc : charTy.size = 1 := rfl
    have hs : 1 ≤ T1.size := h1.1
    simp only [listMaxSize, List.foldl, hc]
    omega
  have heqA2 : listMaxAlign [T1, T2] = max T1.align T2.align := by
    simp only [listMaxAlign, List.foldl]
    omega
  have heqS2 : listMaxSize [T1, T2] = max T1.size T2.size := by
    simp only [listMaxSize, List.foldl]
    omega
  refine ⟨?_, heqA, heqS⟩
  unfold AlignedCharArrayUnion
  rw [hA10, hS10, hA2, hS2, heqA, heqS, heqA2, heqS2]

theorem alignedCharArrayUnion_defaults_noop_witness :
    WellFormed ⟨4, 4, false⟩ ∧ WellFormed ⟨8, 8, false⟩ ∧
      (AlignedCharArrayUnion [⟨4, 4, false⟩, ⟨8, 8, false⟩, charTy, charTy,
          charTy, charTy, charTy, charTy, charTy, charTy]
        = AlignedCharArrayUnion [⟨4, 4, false⟩, ⟨8, 8, false⟩] ∧
      listMaxAlign [⟨4, 4, false⟩, ⟨8, 8, false⟩, charTy, charTy, charTy,
          charTy, charTy, charTy, charTy, charTy]
        = max (CType.align ⟨4, 4, false⟩) (CType.align ⟨8, 8, false⟩) ∧
      listMaxSize [⟨4, 4, false⟩, ⟨8, 8, false⟩, charTy, charTy, charTy,
          charTy, charTy, charTy, charTy, charTy]
        = max (CType.size ⟨4, 4, false⟩) (CType.size ⟨8, 8, false⟩)) :=
  ⟨by decide, by decide,
    alignedCharArrayUnion_defaults_noop ⟨4, 4, false⟩ ⟨8, 8, false⟩
      (by decide) (by decide)⟩
